import Mathlib

/-!
Shallow embedding of the pomf-tg-workers Cloudflare worker.

The repository holds two variants of the same worker:
  * `src/workers.js`      — multi-file upload handler (`Promise.all` over `files[]`);
  * `src/unnamed/part_000` — single-file upload handler (only the first `files[]` entry).

Definitions suffixed `P0` embed the `src/unnamed/part_000` variant; unsuffixed
definitions embed `src/workers.js`.  JavaScript strings are modelled as Lean
`String`s (operated on through their `data` character lists), the Telegram API
and the KV store as explicit function parameters, and the outbound network
calls and KV writes as an explicit effect trace returned next to the response.
-/

/-- `MAX_FILE_SIZE = 50 * 1024 * 1024` from `src/workers.js` line 6. -/
def MAX_FILE_SIZE : Nat := 50 * 1024 * 1024

/-- `TELEGRAM_API_BASE` from `src/workers.js` line 7 (inlined as a literal in part_000). -/
def TELEGRAM_API_BASE : String := "https://api.telegram.org"

/-- `charsStartWith l p` holds when `p` is an initial segment of `l`
(character-level model of JavaScript `String.prototype.startsWith`). -/
def charsStartWith : List Char → List Char → Bool
  | _, [] => true
  | [], _ :: _ => false
  | a :: as, b :: bs => a = b && charsStartWith as bs

/-- `charsContain l p` holds when `p` occurs contiguously inside `l`
(character-level model of JavaScript `String.prototype.includes`). -/
def charsContain : List Char → List Char → Bool
  | [], p => charsStartWith [] p
  | a :: t, p => charsStartWith (a :: t) p || charsContain t p

/-- JavaScript `s.startsWith(p)`. -/
def strStartsWith (s p : String) : Bool := charsStartWith s.data p.data

/-- JavaScript `s.includes(p)`. -/
def strIncludes (s p : String) : Bool := charsContain s.data p.data

/-- The 62-character alphabet of `generatePublicId` (`workers.js` line 145). -/
def idChars : List Char :=
  "abcdefghijklmnopqrstuvwxyzABCDEFGHIJKLMNOPQRSTUVWXYZ0123456789".data

/-- The 8 random characters accumulated by the `for` loop of `generatePublicId`
(`workers.js` lines 146-149).  `Math.floor(Math.random() * chars.length)` always
lands in `[0, 61]`, so each draw is modelled as a `Fin 62`. -/
def randomId (rand : Fin 8 → Fin 62) : List Char :=
  ([0, 1, 2, 3, 4, 5, 6, 7] : List (Fin 8)).map (fun i => idChars.getD (rand i).val 'a')

/-- Index of the last `'.'` in a character list, or `none`
(model of JavaScript `filename.lastIndexOf('.')`, which returns `-1` when absent). -/
def lastIndexOfDot : List Char → Option Nat
  | [] => none
  | c :: t =>
    match lastIndexOfDot t with
    | some i => some (i + 1)
    | none => if c = '.' then some 0 else none

/-- `generatePublicId` from `src/workers.js` lines 144-158 (identical in part_000
lines 136-152): 8 random alphanumeric characters, with the filename's suffix from
its last dot appended when that last dot is not the filename's final character.
`rand` supplies the 8 successive `Math.random` draws. -/
def generatePublicId (rand : Fin 8 → Fin 62) (filename : String) : String :=
  let id := randomId rand
  match lastIndexOfDot filename.data with
  | some i =>
      if i + 1 < filename.data.length then String.mk (id ++ filename.data.drop i)
      else String.mk id
  | none => String.mk id

/-- Prefix of a character list up to (excluding) the first `'.'`
(model of JavaScript `publicId.split('.')[0]`). -/
def takeUntilDot : List Char → List Char
  | [] => []
  | c :: t => if c = '.' then [] else c :: takeUntilDot t

/-- Characters after the last `'/'` (model of `file_path.split('/').pop()`
in part_000 line 120). -/
def afterLastSlash : List Char → List Char
  | [] => []
  | c :: t => if t.contains '/' then afterLastSlash t else if c = '/' then t else c :: t

/-- A file supplied through the multipart form (`File` entries of `files[]`). -/
structure UploadedFile where
  name : String
  size : Nat
  contentType : String
  content : List Nat
deriving DecidableEq

/-- A multipart form value: either a plain string field or a `File`. -/
inductive FormValue
  | str (s : String)
  | file (f : UploadedFile)
deriving DecidableEq

/-- One parsed multipart form entry. -/
structure FormEntry where
  name : String
  value : FormValue
deriving DecidableEq

/-- The `document` object of a Telegram `sendDocument` reply.  `file_id` is kept
optional because the code checks for its absence. -/
structure TgDoc where
  file_id : Option String
  file_size : Nat
deriving DecidableEq

/-- A Telegram `sendDocument` reply, with `result.document` flattened into the
`document` field (a missing `result` behaves like a missing `document`: both end
in the same catch-all error path). -/
structure TgSendResult where
  ok : Bool
  description : String
  document : Option TgDoc
deriving DecidableEq

/-- A Telegram `getFile` reply (`result.file_path` flattened into `file_path`). -/
structure TgFileResult where
  ok : Bool
  file_path : String
deriving DecidableEq

/-- The worker's environment: the two Telegram env vars plus the provider's
responses, modelled as functions of the request they answer. -/
structure Env where
  botToken : String
  chatId : String
  sendDocument : UploadedFile → TgSendResult
  getFile : String → TgFileResult
  fetchHeaders : String → List (String × String)

/-- One per-file record of the upload success response. -/
structure FileRecord where
  hash : String
  name : String
  url : String
  size : Nat
deriving DecidableEq

/-- A response body: a JSON error object, a JSON success object, or a streamed
binary body carrying its response headers. -/
inductive Body
  | errorJson (error : String)
  | successJson (files : List FileRecord)
  | stream (headers : List (String × String))
deriving DecidableEq

/-- An HTTP response (status and body). -/
structure Response where
  status : Nat
  body : Body
deriving DecidableEq

/-- An observable outbound side effect: a Telegram `sendDocument` call, a KV
`put`, a Telegram `getFile` call, or a content fetch. -/
inductive Effect
  | tgSend (chatId : String) (file : UploadedFile)
  | kvPut (key value : String)
  | tgGetFile (fileId : String)
  | fetchUrl (url : String)
deriving DecidableEq

/-- `jsonResponse({success:false, error: message}, status)` (named `jsonError`
in part_000; `workers.js` builds the same object inline). -/
def jsonError (message : String) (status : Nat) : Response :=
  ⟨status, Body.errorJson message⟩

/-- `formData.getAll('files[]').filter(f => f instanceof File)` from
`workers.js` line 44. -/
def filesOf (fd : List FormEntry) : List UploadedFile :=
  ((fd.filter (fun e => decide (e.name = "files[]"))).map (fun e => e.value)).filterMap
    (fun v => match v with | FormValue.file f => some f | FormValue.str _ => none)

/-- `formData.get('files[]')` from part_000 line 45: the first entry under the
key, whether or not it is a `File`. -/
def formGet (fd : List FormEntry) (key : String) : Option FormValue :=
  (fd.find? (fun e => decide (e.name = key))).map (fun e => e.value)

/-- `Headers.set`: replace any existing header of that name, then add the pair. -/
def setHeader (hs : List (String × String)) (k v : String) : List (String × String) :=
  hs.filter (fun p => !decide (p.1 = k)) ++ [(k, v)]

/-- The per-file body of the `files.map(async file => ...)` arrow function in
`workers.js` lines 50-91.  Returns the settled value of that file's promise
(`Except.error` models a throw) together with the outbound effects the body
performed: a `tgSend` once the `sendDocument` fetch is issued, and a `kvPut`
once `FILES.put(publicId, file_id)` runs. -/
def processFile (env : Env) (rand : Fin 8 → Fin 62) (origin : String) (f : UploadedFile) :
    Except String FileRecord × List Effect :=
  if MAX_FILE_SIZE < f.size then
    (Except.error ("File " ++ f.name ++ " exceeds 50MB limit"), [])
  else
    let publicId := generatePublicId rand f.name
    let hashPart := String.mk (takeUntilDot publicId.data)
    let sendResult := env.sendDocument f
    if !sendResult.ok then
      (Except.error ("Telegram API error: " ++ sendResult.description),
       [Effect.tgSend env.chatId f])
    else
      match sendResult.document with
      | none =>
          (Except.error "Failed to retrieve file ID from Telegram", [Effect.tgSend env.chatId f])
      | some doc =>
          match doc.file_id with
          | none =>
              (Except.error "Failed to retrieve file ID from Telegram",
               [Effect.tgSend env.chatId f])
          | some fid =>
              (Except.ok
                 { hash := hashPart, name := f.name,
                   url := origin ++ "/f/" ++ publicId, size := doc.file_size },
               [Effect.tgSend env.chatId f, Effect.kvPut publicId fid])

/-- `files.map(...)` with the position passed along, so that each file gets its
own sequence of `Math.random` draws: the file at position `i` in the batch uses
`randoms (start + i)`. -/
def processFiles (env : Env) (randoms : Nat → Fin 8 → Fin 62) (origin : String) :
    Nat → List UploadedFile → List (Except String FileRecord × List Effect)
  | _, [] => []
  | i, f :: fs =>
      processFile env (randoms i) origin f :: processFiles env randoms origin (i + 1) fs

/-- Collects the settled per-file promises the way `Promise.all` resolves: the
list of values when all are fulfilled, otherwise the first rejection in batch
order. -/
def collectResults : List (Except String FileRecord) → Except String (List FileRecord)
  | [] => Except.ok []
  | Except.ok r :: t => (collectResults t).map (fun rs => r :: rs)
  | Except.error e :: _ => Except.error e

/-- `handleUpload` from `src/workers.js` lines 32-102.  `contentTypeHeader` is
`request.headers.get('Content-Type')` (JS defaults a missing header to `''`),
and `formData` is the outcome of `await request.formData()` (`Except.error`
carries the runtime's parse-error message, which the outer catch then inspects
for the substring `'exceeds'`).

Modelling note on `Promise.all(files.map(async ...))`: every mapped body starts
running, so the effect trace is the concatenation of all per-file effects even
when some file's body throws.  An oversized file throws synchronously, before
any body has resumed past its first `await`; hence when the batch contains an
oversized file, the rejection `Promise.all` reports is the first oversized
file's error (in batch order), and otherwise it is the first rejection in batch
order (network completions are modelled as arriving in request order). -/
def handleUpload (env : Env) (randoms : Nat → Fin 8 → Fin 62) (origin : String)
    (contentTypeHeader : Option String) (formData : Except String (List FormEntry)) :
    Response × List Effect :=
  let contentType := contentTypeHeader.getD ""
  if !strStartsWith contentType "multipart/form-data" then
    (jsonError "Invalid Content-Type. Must be multipart/form-data" 400, [])
  else
    match formData with
    | Except.error msg =>
        (jsonError (if msg = "" then "Internal server error" else msg)
           (if strIncludes msg "exceeds" then 400 else 500), [])
    | Except.ok fd =>
        let files := filesOf fd
        if files.isEmpty then
          (jsonError "No valid files uploaded" 400, [])
        else
          let pr := processFiles env randoms origin 0 files
          let effects := (pr.map (fun x => x.2)).flatten
          match files.find? (fun f => decide (MAX_FILE_SIZE < f.size)) with
          | some f =>
              let msg := "File " ++ f.name ++ " exceeds 50MB limit"
              (jsonError msg (if strIncludes msg "exceeds" then 400 else 500), effects)
          | none =>
              match collectResults (pr.map (fun x => x.1)) with
              | Except.error e =>
                  (jsonError (if e = "" then "Internal server error" else e)
                     (if strIncludes e "exceeds" then 400 else 500), effects)
              | Except.ok recs => (⟨200, Body.successJson recs⟩, effects)

/-- `handleUpload` from `src/unnamed/part_000` lines 28-94: single-file variant.
Only the first `files[]` entry is consulted.  `origin` stands for the request
URL's origin: `new URL('/f/' + publicId, request.url).href` resolves to the
origin-prefixed absolute link.  A missing `result.document` raises a TypeError
and a `FILES.put` with an undefined value rejects; both land in the outer catch
as `'Internal server error'` with no KV write. -/
def handleUploadP0 (env : Env) (rand : Fin 8 → Fin 62) (origin : String)
    (contentTypeHeader : Option String) (formData : Except String (List FormEntry)) :
    Response × List Effect :=
  let contentType := contentTypeHeader.getD ""
  if !strStartsWith contentType "multipart/form-data" then
    (jsonError "Invalid Content-Type. Must be multipart/form-data" 400, [])
  else
    match formData with
    | Except.error _ => (jsonError "Malformed multipart form data" 400, [])
    | Except.ok fd =>
        match formGet fd "files[]" with
        | some (FormValue.file f) =>
            let publicId := generatePublicId rand f.name
            let hashPart := String.mk (takeUntilDot publicId.data)
            let sendResult := env.sendDocument f
            if !sendResult.ok then
              (jsonError "Upload failed" 500, [Effect.tgSend env.chatId f])
            else
              match sendResult.document with
              | none => (jsonError "Internal server error" 500, [Effect.tgSend env.chatId f])
              | some doc =>
                  match doc.file_id with
                  | none =>
                      (jsonError "Internal server error" 500, [Effect.tgSend env.chatId f])
                  | some fid =>
                      (⟨200, Body.successJson
                          [{ hash := hashPart, name := f.name,
                             url := origin ++ "/f/" ++ publicId, size := doc.file_size }]⟩,
                       [Effect.tgSend env.chatId f, Effect.kvPut publicId fid])
        | _ => (jsonError "No valid file uploaded" 400, [])

/-- `handleDownload` from `src/workers.js` lines 104-129.  `kv` is the `FILES`
KV namespace (`none` models an absent key); JavaScript's `if (!fileId)` also
treats an empty-string value as missing.  The final `new Response(response.body,
{ headers })` defaults to status 200. -/
def handleDownload (env : Env) (kv : String → Option String) (publicId : String) :
    Response × List Effect :=
  match kv publicId with
  | none => (jsonError "File not found" 404, [])
  | some fileId =>
      if fileId = "" then (jsonError "File not found" 404, [])
      else
        let fd := env.getFile fileId
        if !fd.ok then (jsonError "Download failed" 500, [Effect.tgGetFile fileId])
        else
          let fileUrl := TELEGRAM_API_BASE ++ "/file/bot" ++ env.botToken ++ "/" ++ fd.file_path
          (⟨200, Body.stream
              (setHeader
                (setHeader (env.fetchHeaders fileUrl) "Content-Disposition"
                  ("attachment; filename=\"" ++ publicId ++ "\""))
                "Cache-Control" "public, max-age=31536000")⟩,
           [Effect.tgGetFile fileId, Effect.fetchUrl fileUrl])

/-- `handleDownload` from `src/unnamed/part_000` lines 96-133: identical to the
workers.js variant except that the attachment filename is the last `/`-separated
segment of Telegram's `file_path` instead of the public identifier. -/
def handleDownloadP0 (env : Env) (kv : String → Option String) (publicId : String) :
    Response × List Effect :=
  match kv publicId with
  | none => (jsonError "File not found" 404, [])
  | some fileId =>
      if fileId = "" then (jsonError "File not found" 404, [])
      else
        let fd := env.getFile fileId
        if !fd.ok then (jsonError "Download failed" 500, [Effect.tgGetFile fileId])
        else
          let fileUrl := TELEGRAM_API_BASE ++ "/file/bot" ++ env.botToken ++ "/" ++ fd.file_path
          let filename := String.mk (afterLastSlash fd.file_path.data)
          (⟨200, Body.stream
              (setHeader
                (setHeader (env.fetchHeaders fileUrl) "Content-Disposition"
                  ("attachment; filename=\"" ++ filename ++ "\""))
                "Cache-Control" "public, max-age=31536000")⟩,
           [Effect.tgGetFile fileId, Effect.fetchUrl fileUrl])

/-- An incoming HTTP request: method, path and origin from `new URL(request.url)`,
the `Content-Type` header, and the outcome `await request.formData()` would
produce on its body. -/
structure Request where
  method : String
  path : String
  origin : String
  contentTypeHeader : Option String
  formData : Except String (List FormEntry)

/-- `handleRequest` from `src/workers.js` lines 13-30: `POST /upload` goes to
the upload handler, any path starting with `/f/` goes to the download handler
with everything after the prefix as the public identifier, and anything else
is a 404. -/
def handleRequest (env : Env) (randoms : Nat → Fin 8 → Fin 62)
    (kv : String → Option String) (req : Request) : Response × List Effect :=
  if req.path = "/upload" ∧ req.method = "POST" then
    handleUpload env randoms req.origin req.contentTypeHeader req.formData
  else if strStartsWith req.path "/f/" then
    handleDownload env kv (String.mk (req.path.data.drop 3))
  else
    (jsonError "Not found" 404, [])

/-- `handleRequest` from `src/unnamed/part_000` lines 10-26: the same
condition-for-condition dispatch (part_000 writes the second test as an
`else if`, which is equivalent because the first branch returns), handing the
routes to the part_000 handlers.  The upload handler receives the request
URL's origin, from which part_000 later rebuilds the absolute link via
`new URL('/f/' + publicId, request.url)`. -/
def handleRequestP0 (env : Env) (rand : Fin 8 → Fin 62)
    (kv : String → Option String) (req : Request) : Response × List Effect :=
  if req.path = "/upload" ∧ req.method = "POST" then
    handleUploadP0 env rand req.origin req.contentTypeHeader req.formData
  else if strStartsWith req.path "/f/" then
    handleDownloadP0 env kv (String.mk (req.path.data.drop 3))
  else
    (jsonError "Not found" 404, [])

/-- Modelled from the claim's words, for comparison with `generatePublicId`:
"if the filename contains a dot that is not its final character, the substring
from the last such dot to the end of the filename is appended".  Dots that are
not the final character are exactly the dots inside `dropLast`. -/
def generatePublicIdClaim (rand : Fin 8 → Fin 62) (filename : String) : String :=
  let id := randomId rand
  match lastIndexOfDot filename.data.dropLast with
  | some i => String.mk (id ++ filename.data.drop i)
  | none => String.mk id

/-- The extension suffix `generatePublicId` appends: the filename's tail from
its last dot when that dot is not the final character, and `none` otherwise. -/
def extOf (filename : String) : Option (List Char) :=
  match lastIndexOfDot filename.data with
  | some i => if i + 1 < filename.data.length then some (filename.data.drop i) else none
  | none => none

/-- A file for which the upload handler reaches `FILES.put`: within the size
limit, provider reports `ok`, and the reply carries a `file_id`. -/
def storedOk (env : Env) (f : UploadedFile) : Bool :=
  decide (f.size ≤ MAX_FILE_SIZE) && (env.sendDocument f).ok &&
    (match (env.sendDocument f).document with
     | some d => d.file_id.isSome
     | none => false)

/-- Recognises a KV write effect. -/
def isKvPut : Effect → Bool
  | Effect.kvPut _ _ => true
  | _ => false

/-- Recognises a provider `sendDocument` call effect. -/
def isTgSend : Effect → Bool
  | Effect.tgSend _ _ => true
  | _ => false

/-- Number of file records in a success body, `none` for any other body. -/
def successFilesCount : Body → Option Nat
  | Body.successJson l => some l.length
  | _ => none

/-! Helper lemmas. -/

theorem List.mem_of_getElemEq {α : Type} {l : List α} {n : Nat} {a : α}
    (h : l[n]? = some a) : a ∈ l := by
  obtain ⟨hlt, he⟩ := List.getElem?_eq_some_iff.1 h
  exact he ▸ List.getElem_mem hlt

theorem charsContain_append_right (a b p : List Char) (h : charsContain b p = true) :
    charsContain (a ++ b) p = true := by
  induction a with
  | nil => simpa using h
  | cons x xs ih =>
      show charsContain (x :: (xs ++ b)) p = true
      unfold charsContain
      rw [ih]
      simp

theorem strIncludes_exceeds (n : String) :
    strIncludes ("File " ++ n ++ " exceeds 50MB limit") "exceeds" = true := by
  unfold strIncludes
  rw [String.data_append]
  exact charsContain_append_right _ _ _ (by decide)

theorem randomId_length (rand : Fin 8 → Fin 62) : (randomId rand).length = 8 := by
  simp [randomId]

theorem randomId_mem (rand : Fin 8 → Fin 62) (c : Char) (h : c ∈ randomId rand) :
    c ∈ idChars := by
  unfold randomId at h
  obtain ⟨i, _, he⟩ := List.mem_map.1 h
  have hlt : (rand i).val < idChars.length := by
    have : idChars.length = 62 := by decide
    rw [this]; exact (rand i).isLt
  rw [List.getD_eq_getElem idChars 'a' hlt] at he
  exact he ▸ List.getElem_mem hlt

theorem randomId_no_dot (rand : Fin 8 → Fin 62) : '.' ∉ randomId rand := by
  intro h
  have := randomId_mem rand '.' h
  revert this
  decide

theorem takeUntilDot_of_no_dot (l : List Char) (h : '.' ∉ l) : takeUntilDot l = l := by
  induction l with
  | nil => rfl
  | cons c t ih =>
      unfold takeUntilDot
      have hc : ¬ c = '.' := fun he => h (he ▸ List.mem_cons_self c t)
      rw [if_neg (by simpa [eq_comm] using hc)]
      rw [ih (fun hm => h (List.mem_cons_of_mem c hm))]

theorem takeUntilDot_append_dot (a t : List Char) (h : '.' ∉ a) :
    takeUntilDot (a ++ '.' :: t) = a := by
  induction a with
  | nil => simp [takeUntilDot]
  | cons c cs ih =>
      show takeUntilDot (c :: (cs ++ '.' :: t)) = c :: cs
      unfold takeUntilDot
      have hc : ¬ c = '.' := fun he => h (he ▸ List.mem_cons_self c cs)
      rw [if_neg hc, ih (fun hm => h (List.mem_cons_of_mem c hm))]

theorem lastIndexOfDot_getElem (l : List Char) (i : Nat) (h : lastIndexOfDot l = some i) :
    l[i]? = some '.' := by
  induction l generalizing i with
  | nil => simp [lastIndexOfDot] at h
  | cons c t ih =>
      unfold lastIndexOfDot at h
      cases ht : lastIndexOfDot t with
      | some j =>
          rw [ht] at h
          simp at h
          subst h
          simpa using ih j ht
      | none =>
          rw [ht] at h
          by_cases hc : c = '.'
          · rw [if_pos hc] at h
            simp at h
            subst h
            simpa using hc
          · rw [if_neg hc] at h
            cases h

theorem lastIndexOfDot_last (l : List Char) (i : Nat) (h : lastIndexOfDot l = some i)
    (j : Nat) (hij : i < j) : l[j]? ≠ some '.' := by
  induction l generalizing i j with
  | nil => simp
  | cons c t ih =>
      unfold lastIndexOfDot at h
      cases ht : lastIndexOfDot t with
      | some k =>
          rw [ht] at h
          simp at h
          subst h
          cases j with
          | zero => omega
          | succ j' =>
              simpa using ih k ht j' (by omega)
      | none =>
          rw [ht] at h
          by_cases hc : c = '.'
          · rw [if_pos hc] at h
            simp at h
            subst h
            cases j with
            | zero => omega
            | succ j' =>
                simp only [List.getElem?_cons_succ]
                intro hj
                have : ∀ m : Nat, t[m]? ≠ some '.' := by
                  intro m hm
                  -- a dot inside t would force lastIndexOfDot t to be some
                  clear hj hij ih
                  induction t generalizing m with
                  | nil => simp at hm
                  | cons d u ihu =>
                      unfold lastIndexOfDot at ht
                      cases hu : lastIndexOfDot u with
                      | some _ => rw [hu] at ht; simp at ht
                      | none =>
                          rw [hu] at ht
                          by_cases hd : d = '.'
                          · rw [if_pos hd] at ht; cases ht
                          · rw [if_neg hd] at ht
                            cases m with
                            | zero => simp at hm; exact hd hm
                            | succ m' => exact ihu hu m' (by simpa using hm)
                exact this j' hj
          · rw [if_neg hc] at h
            cases h

theorem lastIndexOfDot_none (l : List Char) (h : lastIndexOfDot l = none)
    (j : Nat) : l[j]? ≠ some '.' := by
  induction l generalizing j with
  | nil => simp
  | cons c t ih =>
      unfold lastIndexOfDot at h
      cases ht : lastIndexOfDot t with
      | some k => rw [ht] at h; simp at h
      | none =>
          rw [ht] at h
          by_cases hc : c = '.'
          · rw [if_pos hc] at h; cases h
          · rw [if_neg hc] at h
            cases j with
            | zero => simpa using hc
            | succ j' => simpa using ih ht j'

theorem generatePublicId_eq_ext (rand : Fin 8 → Fin 62) (filename : String) :
    generatePublicId rand filename = String.mk (randomId rand ++ (extOf filename).getD []) := by
  unfold generatePublicId extOf
  cases h : lastIndexOfDot filename.data with
  | none => simp
  | some i =>
      by_cases hi : i + 1 < filename.data.length
      · have hi' : i + 1 < filename.length := hi
        simp [hi, hi']
      · have hi' : ¬ i + 1 < filename.length := hi
        simp [hi, hi']

theorem extOf_cases (filename : String) :
    extOf filename = none ∨
    ∃ i, lastIndexOfDot filename.data = some i ∧ i + 1 < filename.data.length ∧
      extOf filename = some (filename.data.drop i) := by
  unfold extOf
  cases h : lastIndexOfDot filename.data with
  | none => exact Or.inl rfl
  | some i =>
      by_cases hi : i + 1 < filename.data.length
      · exact Or.inr ⟨i, rfl, hi, by
          have hi' : i + 1 < filename.length := hi
          simp [hi, hi']⟩
      · left
        have hi' : ¬ i + 1 < filename.length := hi
        simp [hi, hi']

theorem drop_of_dot (l : List Char) (i : Nat) (h : l[i]? = some '.') :
    l.drop i = '.' :: l.drop (i + 1) := by
  obtain ⟨hlt, he⟩ := List.getElem?_eq_some_iff.1 h
  rw [List.drop_eq_getElem_cons hlt, he]

theorem takeUntilDot_publicId (rand : Fin 8 → Fin 62) (filename : String) :
    takeUntilDot (generatePublicId rand filename).data = randomId rand := by
  rw [generatePublicId_eq_ext]
  show takeUntilDot (randomId rand ++ (extOf filename).getD []) = randomId rand
  rcases extOf_cases filename with h | ⟨i, hlast, _, h⟩
  · rw [h]
    simpa using takeUntilDot_of_no_dot _ (randomId_no_dot rand)
  · rw [h]
    show takeUntilDot (randomId rand ++ filename.data.drop i) = randomId rand
    rw [drop_of_dot filename.data i (lastIndexOfDot_getElem _ _ hlast)]
    exact takeUntilDot_append_dot _ _ (randomId_no_dot rand)

theorem collectResults_ok_length (rs : List (Except String FileRecord))
    (recs : List FileRecord) (h : collectResults rs = Except.ok recs) :
    recs.length = rs.length := by
  induction rs generalizing recs with
  | nil => simp [collectResults] at h; simp [h]
  | cons r t ih =>
      cases r with
      | ok v =>
          unfold collectResults at h
          cases ht : collectResults t with
          | ok vs =>
              rw [ht] at h
              simp [Except.map] at h
              subst h
              simp [ih vs ht]
          | error e => rw [ht] at h; simp [Except.map] at h
      | error e => simp [collectResults] at h

theorem collectResults_ok_get (rs : List (Except String FileRecord))
    (recs : List FileRecord) (h : collectResults rs = Except.ok recs)
    (i : Nat) (r : FileRecord) (hr : recs[i]? = some r) :
    rs[i]? = some (Except.ok r) := by
  induction rs generalizing recs i with
  | nil =>
      simp [collectResults] at h
      subst h
      simp at hr
  | cons x t ih =>
      cases x with
      | ok v =>
          unfold collectResults at h
          cases ht : collectResults t with
          | ok vs =>
              rw [ht] at h
              simp [Except.map] at h
              subst h
              cases i with
              | zero => simp at hr; simp [hr]
              | succ i' =>
                  simp at hr ⊢
                  exact ih vs ht i' hr
          | error e => rw [ht] at h; simp [Except.map] at h
      | error e => simp [collectResults] at h

theorem processFiles_length (env : Env) (randoms : Nat → Fin 8 → Fin 62) (origin : String)
    (n : Nat) (fs : List UploadedFile) :
    (processFiles env randoms origin n fs).length = fs.length := by
  induction fs generalizing n with
  | nil => rfl
  | cons f t ih => simp [processFiles, ih]

theorem processFiles_get (env : Env) (randoms : Nat → Fin 8 → Fin 62) (origin : String)
    (n : Nat) (fs : List UploadedFile) (j : Nat) (f : UploadedFile)
    (h : fs[j]? = some f) :
    (processFiles env randoms origin n fs)[j]? =
      some (processFile env (randoms (n + j)) origin f) := by
  induction fs generalizing n j with
  | nil => simp at h
  | cons x t ih =>
      cases j with
      | zero =>
          simp at h
          subst h
          simp [processFiles]
      | succ j' =>
          simp at h
          show (processFile env (randoms n) origin x ::
              processFiles env randoms origin (n + 1) t)[j' + 1]? = _
          simp only [List.getElem?_cons_succ]
          rw [ih (n + 1) j' h]
          have : n + 1 + j' = n + (j' + 1) := by omega
          rw [this]

theorem processFile_oversize (env : Env) (rand : Fin 8 → Fin 62) (origin : String)
    (f : UploadedFile) (h : MAX_FILE_SIZE < f.size) :
    processFile env rand origin f =
      (Except.error ("File " ++ f.name ++ " exceeds 50MB limit"), []) := by
  unfold processFile
  rw [if_pos h]

theorem mem_effects_decompose (env : Env) (randoms : Nat → Fin 8 → Fin 62) (origin : String)
    (n : Nat) (fs : List UploadedFile) (e : Effect)
    (h : e ∈ ((processFiles env randoms origin n fs).map (fun x => x.2)).flatten) :
    ∃ j f, fs[j]? = some f ∧ e ∈ (processFile env (randoms (n + j)) origin f).2 := by
  induction fs generalizing n with
  | nil => simp [processFiles] at h
  | cons x t ih =>
      simp only [processFiles, List.map_cons, List.flatten_cons, List.mem_append] at h
      cases h with
      | inl h0 => exact ⟨0, x, by simp, by simpa using h0⟩
      | inr h1 =>
          obtain ⟨j, f, hj, hf⟩ := ih (n + 1) h1
          refine ⟨j + 1, f, by simpa using hj, ?_⟩
          have : n + (j + 1) = n + 1 + j := by omega
          rw [this]
          exact hf

theorem processFile_kvPut_count (env : Env) (rand : Fin 8 → Fin 62) (origin : String)
    (f : UploadedFile) :
    (processFile env rand origin f).2.countP isKvPut = if storedOk env f then 1 else 0 := by
  unfold processFile storedOk
  by_cases h1 : MAX_FILE_SIZE < f.size
  · have : ¬ f.size ≤ MAX_FILE_SIZE := Nat.not_le.2 h1
    simp [h1, this]
  · have hle : f.size ≤ MAX_FILE_SIZE := Nat.le_of_not_lt h1
    cases hok : (env.sendDocument f).ok with
    | false => simp [h1, hok, hle, isKvPut]
    | true =>
        cases hdoc : (env.sendDocument f).document with
        | none => simp [h1, hok, hdoc, hle, isKvPut]
        | some doc =>
            cases hfid : doc.file_id with
            | none => simp [h1, hok, hdoc, hfid, hle, isKvPut]
            | some fid => simp [h1, hok, hdoc, hfid, hle, isKvPut]

theorem processFiles_kvPut_count (env : Env) (randoms : Nat → Fin 8 → Fin 62)
    (origin : String) (n : Nat) (fs : List UploadedFile) :
    (((processFiles env randoms origin n fs).map (fun x => x.2)).flatten).countP isKvPut
      = fs.countP (storedOk env) := by
  induction fs generalizing n with
  | nil => simp [processFiles]
  | cons x t ih =>
      simp only [processFiles, List.map_cons, List.flatten_cons, List.countP_append,
        List.countP_cons]
      rw [processFile_kvPut_count, ih (n + 1)]
      omega

theorem generatePublicId_data (rand : Fin 8 → Fin 62) (filename : String) :
    (generatePublicId rand filename).data = randomId rand ++ (extOf filename).getD [] := by
  rw [generatePublicId_eq_ext]

theorem extOf_eq_some (filename : String) (i : Nat)
    (h : lastIndexOfDot filename.data = some i) (hi : i + 1 < filename.data.length) :
    extOf filename = some (filename.data.drop i) := by
  have hi' : i + 1 < filename.length := hi
  unfold extOf
  rw [h]
  simp [hi, hi']

theorem extOf_eq_none_final (filename : String) (i : Nat)
    (h : lastIndexOfDot filename.data = some i) (hi : ¬ i + 1 < filename.data.length) :
    extOf filename = none := by
  have hi' : ¬ i + 1 < filename.length := hi
  unfold extOf
  rw [h]
  simp [hi, hi']

theorem extOf_eq_none_noDot (filename : String) (h : lastIndexOfDot filename.data = none) :
    extOf filename = none := by
  unfold extOf
  rw [h]

/-! Concrete fixtures used by witnesses and counterexamples. -/

/-- All-zero random draws for one identifier. -/
def randZero : Fin 8 → Fin 62 := fun _ => 0

/-- All-zero random draws for a whole batch. -/
def randomsZero : Nat → Fin 8 → Fin 62 := fun _ _ => 0

/-- A provider that accepts every document. -/
def testEnv : Env :=
  { botToken := "tok", chatId := "chat",
    sendDocument := fun _ =>
      { ok := true, description := "",
        document := some { file_id := some "fid1", file_size := 1234 } },
    getFile := fun _ => { ok := true, file_path := "documents/file_1.png" },
    fetchHeaders := fun _ => [("content-type", "application/octet-stream")] }

/-- A provider that rejects every document (as Telegram does above its own limit). -/
def testEnvReject : Env :=
  { testEnv with
      sendDocument := fun _ =>
        { ok := false, description := "Request Entity Too Large", document := none } }

/-- A 10 KiB file named photo.png. -/
def smallFile : UploadedFile :=
  { name := "photo.png", size := 10240, contentType := "image/png", content := [1, 2, 3] }

/-- A file one byte over the 50 MiB ceiling. -/
def bigFile : UploadedFile :=
  { name := "big.bin", size := MAX_FILE_SIZE + 1, contentType := "application/octet-stream",
    content := [] }

/-- A DELETE request below the `/f/` prefix. -/
def reqDelete : Request :=
  { method := "DELETE", path := "/f/abc", origin := "https://ex.com",
    contentTypeHeader := none, formData := Except.error "no body" }

/-- A GET request whose path is exactly the bare prefix. -/
def reqBareF : Request :=
  { method := "GET", path := "/f/", origin := "https://ex.com",
    contentTypeHeader := none, formData := Except.error "no body" }

/-! Claim C2 — identifier generator contract. -/

/-- C2 counterexample: the filename `".."` contains a dot that is not its final
character (the one at index 0), so the claim requires the substring from that
dot (`".."`) to be appended; the code instead looks at the last dot overall,
which is final, and returns the bare 8-character string. -/
theorem generatePublicId_claim_cex :
    ((".." : String).data)[0]? = some '.' ∧ 0 + 1 < (".." : String).data.length ∧
    generatePublicId (fun _ => (0 : Fin 62)) ".." = "aaaaaaaa" ∧
    generatePublicIdClaim (fun _ => (0 : Fin 62)) ".." = "aaaaaaaa.." ∧
    generatePublicId (fun _ => (0 : Fin 62)) ".." ≠
      generatePublicIdClaim (fun _ => (0 : Fin 62)) ".." := by
  decide

/-- C2 amended: the first 8 characters of the generator's output are drawn from
the 62-character alphanumeric alphabet; when the filename's LAST dot exists and
is not its final character, the substring from that last dot to the end is
appended; otherwise (no dot at all, or last dot in final position) the result
is exactly the 8-character string. -/
theorem generatePublicId_characterization (rand : Fin 8 → Fin 62) (filename : String) :
    ∃ id : List Char, id.length = 8 ∧ (∀ c ∈ id, c ∈ idChars) ∧
      ((∃ i, (filename.data)[i]? = some '.' ∧
          (∀ j, i < j → (filename.data)[j]? ≠ some '.') ∧
          i + 1 < filename.data.length ∧
          (generatePublicId rand filename).data = id ++ filename.data.drop i) ∨
       (∃ i, (filename.data)[i]? = some '.' ∧
          (∀ j, i < j → (filename.data)[j]? ≠ some '.') ∧
          i + 1 = filename.data.length ∧
          (generatePublicId rand filename).data = id) ∨
       ((∀ j : Nat, (filename.data)[j]? ≠ some '.') ∧
          (generatePublicId rand filename).data = id)) := by
  refine ⟨randomId rand, randomId_length rand, fun c hc => randomId_mem rand c hc, ?_⟩
  cases h : lastIndexOfDot filename.data with
  | some i =>
      have hdot := lastIndexOfDot_getElem _ _ h
      have hmax := lastIndexOfDot_last _ _ h
      by_cases hi : i + 1 < filename.data.length
      · refine Or.inl ⟨i, hdot, hmax, hi, ?_⟩
        rw [generatePublicId_data, extOf_eq_some filename i h hi]
        rfl
      · have hlt : i < filename.data.length := (List.getElem?_eq_some_iff.1 hdot).1
        refine Or.inr (Or.inl ⟨i, hdot, hmax, by omega, ?_⟩)
        rw [generatePublicId_data, extOf_eq_none_final filename i h hi]
        simp
  | none =>
      refine Or.inr (Or.inr ⟨lastIndexOfDot_none _ h, ?_⟩)
      rw [generatePublicId_data, extOf_eq_none_noDot filename h]
      simp

/-! Claim C7 — identifier depends only on randomness and extension. -/

/-- C7: the generator never reads the file's content (it only receives the
name), and two filenames with the same extension suffix as computed by the
code (or both lacking one) yield the same identifier under the same random
draws. -/
theorem generatePublicId_ext_only (f g : String) (h : extOf f = extOf g)
    (rand : Fin 8 → Fin 62) :
    generatePublicId rand f = generatePublicId rand g := by
  rw [generatePublicId_eq_ext, generatePublicId_eq_ext, h]

/-- C7 witness at two filenames sharing the `.png` extension. -/
theorem generatePublicId_ext_only_witness :
    extOf "a.png" = extOf "b.png" ∧
    generatePublicId randZero "a.png" = generatePublicId randZero "b.png" :=
  ⟨by decide, generatePublicId_ext_only "a.png" "b.png" (by decide) randZero⟩

/-! Claim C5 — download of an absent identifier. -/

/-- C5: when the KV store has no entry for the identifier, both download
handlers answer 404 `{success:false, error:"File not found"}` and issue no
outbound call at all. -/
theorem handleDownload_absent_404 (env : Env) (kv : String → Option String)
    (publicId : String) (h : kv publicId = none) :
    handleDownload env kv publicId = (jsonError "File not found" 404, []) ∧
    handleDownloadP0 env kv publicId = (jsonError "File not found" 404, []) := by
  constructor
  · unfold handleDownload
    rw [h]
  · unfold handleDownloadP0
    rw [h]

/-- C5 witness on an empty store. -/
theorem handleDownload_absent_404_witness :
    ((fun _ : String => (none : Option String)) "doesNotExist.png" = none) ∧
    (handleDownload testEnv (fun _ => none) "doesNotExist.png"
        = (jsonError "File not found" 404, []) ∧
     handleDownloadP0 testEnv (fun _ => none) "doesNotExist.png"
        = (jsonError "File not found" 404, [])) :=
  ⟨rfl, handleDownload_absent_404 testEnv (fun _ => none) "doesNotExist.png" rfl⟩

/-! Claim C10 — the bare `/f/` path reaches the download handler. -/

/-- C10: a request whose path is exactly `/f/` is routed to the download
handler with the empty string as lookup key; when the store has nothing under
the empty key the reply is the download handler's \"File not found\" 404, not
the router's \"Not found\" 404. -/
theorem route_bare_f_prefix (env : Env) (randoms : Nat → Fin 8 → Fin 62)
    (kv : String → Option String) (req : Request)
    (hpath : req.path = "/f/") (hkv : kv "" = none) :
    handleRequest env randoms kv req = (jsonError "File not found" 404, []) ∧
    (jsonError "File not found" 404).body ≠ (jsonError "Not found" 404).body := by
  constructor
  · unfold handleRequest
    rw [hpath]
    have h1 : ¬ (("/f/" : String) = "/upload" ∧ req.method = "POST") :=
      fun hc => absurd hc.1 (by decide)
    have h2 : strStartsWith "/f/" "/f/" = true := by decide
    have h3 : String.mk (("/f/" : String).data.drop 3) = "" := by decide
    rw [if_neg h1, if_pos (by rw [h2]), h3]
    unfold handleDownload
    rw [hkv]
  · decide

/-- C10 witness: GET on the bare prefix against an empty store. -/
theorem route_bare_f_prefix_witness :
    reqBareF.path = "/f/" ∧ ((fun _ : String => (none : Option String)) "" = none) ∧
    (handleRequest testEnv randomsZero (fun _ => none) reqBareF
        = (jsonError "File not found" 404, []) ∧
     (jsonError "File not found" 404).body ≠ (jsonError "Not found" 404).body) :=
  ⟨rfl, rfl, route_bare_f_prefix testEnv randomsZero (fun _ => none) reqBareF rfl rfl⟩

/-! Claim C3 — routing. -/

/-- C3 counterexample: a DELETE under `/f/` is not one of the two advertised
routes, yet both variants' routers hand it to the download handler (whose
"File not found" body comes back), instead of answering the router's
"Not found" 404 that the claim promises for every other method/path
combination. -/
theorem router_dispatch_cex :
    reqDelete.method ≠ "POST" ∧ reqDelete.method ≠ "GET" ∧
    (handleRequest testEnv randomsZero (fun _ => none) reqDelete).1.body
      = Body.errorJson "File not found" ∧
    (handleRequest testEnv randomsZero (fun _ => none) reqDelete).1.body
      ≠ Body.errorJson "Not found" ∧
    (handleRequestP0 testEnv randZero (fun _ => none) reqDelete).1.body
      = Body.errorJson "File not found" ∧
    (handleRequestP0 testEnv randZero (fun _ => none) reqDelete).1.body
      ≠ Body.errorJson "Not found" := by
  decide

/-- C3 amended: in both variants, routing is exclusive and exhaustive with
these three cases: POST `/upload` goes to the upload handler; ANY method whose
path starts with `/f/` goes to the download handler with everything after the
prefix, verbatim, as the public identifier; everything else gets the router's
404 `{success:false, error:"Not found"}` with no side effect. -/
theorem handleRequest_routing (env : Env) (randoms : Nat → Fin 8 → Fin 62)
    (rand : Fin 8 → Fin 62) (kv : String → Option String) (req : Request) :
    (req.path = "/upload" ∧ req.method = "POST" ∧
      handleRequest env randoms kv req
        = handleUpload env randoms req.origin req.contentTypeHeader req.formData ∧
      handleRequestP0 env rand kv req
        = handleUploadP0 env rand req.origin req.contentTypeHeader req.formData) ∨
    (¬ (req.path = "/upload" ∧ req.method = "POST") ∧ strStartsWith req.path "/f/" = true ∧
      handleRequest env randoms kv req
        = handleDownload env kv (String.mk (req.path.data.drop 3)) ∧
      handleRequestP0 env rand kv req
        = handleDownloadP0 env kv (String.mk (req.path.data.drop 3))) ∨
    (¬ (req.path = "/upload" ∧ req.method = "POST") ∧ strStartsWith req.path "/f/" = false ∧
      handleRequest env randoms kv req = (jsonError "Not found" 404, []) ∧
      handleRequestP0 env rand kv req = (jsonError "Not found" 404, [])) := by
  by_cases h1 : req.path = "/upload" ∧ req.method = "POST"
  · refine Or.inl ⟨h1.1, h1.2, ?_, ?_⟩
    · unfold handleRequest
      rw [if_pos h1]
    · unfold handleRequestP0
      rw [if_pos h1]
  · by_cases h2 : strStartsWith req.path "/f/" = true
    · refine Or.inr (Or.inl ⟨h1, h2, ?_, ?_⟩)
      · unfold handleRequest
        rw [if_neg h1, if_pos (by rw [h2])]
      · unfold handleRequestP0
        rw [if_neg h1, if_pos (by rw [h2])]
    · have h2' : strStartsWith req.path "/f/" = false := by simpa using h2
      refine Or.inr (Or.inr ⟨h1, h2', ?_, ?_⟩)
      · unfold handleRequest
        rw [if_neg h1, if_neg (by rw [h2']; exact Bool.false_ne_true)]
      · unfold handleRequestP0
        rw [if_neg h1, if_neg (by rw [h2']; exact Bool.false_ne_true)]

/-! Claim C6 — malformed multipart body. -/

/-- C6 counterexample: in `workers.js` a `request.formData()` failure is not
answered with 400; it falls into the generic catch, whose status is 500 for
any parse-error message not containing the substring `exceeds`. -/
theorem parse_failure_workers_cex :
    (handleUpload testEnv randomsZero "https://ex.com" (some "multipart/form-data; boundary=x")
        (Except.error "Unable to parse body as multipart form data")).1.status = 500 ∧
    (handleUpload testEnv randomsZero "https://ex.com" (some "multipart/form-data; boundary=x")
        (Except.error "Unable to parse body as multipart form data")).1.status ≠ 400 := by
  decide

/-- C6 amended: on a multipart Content-Type whose body fails to parse, the
part_000 variant answers 400 `{success:false, error:"Malformed multipart form
data"}` with no side effect, while the workers.js variant lets the parse error
reach its generic catch and answers 500 (with the runtime's message as the
error string) whenever that message does not contain `exceeds`; neither
variant performs any provider call or KV write. -/
theorem parse_failure_behavior (envA envB : Env) (rand : Fin 8 → Fin 62)
    (randoms : Nat → Fin 8 → Fin 62) (origin : String) (cth : Option String) (msg : String)
    (hct : strStartsWith (cth.getD "") "multipart/form-data" = true)
    (hmsg : strIncludes msg "exceeds" = false) :
    handleUploadP0 envA rand origin cth (Except.error msg)
      = (jsonError "Malformed multipart form data" 400, []) ∧
    (handleUpload envB randoms origin cth (Except.error msg)).1.status = 500 ∧
    (handleUpload envB randoms origin cth (Except.error msg)).1.body
      = Body.errorJson (if msg = "" then "Internal server error" else msg) ∧
    (handleUpload envB randoms origin cth (Except.error msg)).2 = [] := by
  refine ⟨?_, ?_, ?_, ?_⟩ <;>
    simp [handleUpload, handleUploadP0, jsonError, hct, hmsg]

/-- C6 witness at a concrete parse-error message. -/
theorem parse_failure_behavior_witness :
    strStartsWith ((some "multipart/form-data" : Option String).getD "")
        "multipart/form-data" = true ∧
    strIncludes "Unable to parse body as multipart form data" "exceeds" = false ∧
    (handleUploadP0 testEnv randZero "https://ex.com" (some "multipart/form-data")
        (Except.error "Unable to parse body as multipart form data")
      = (jsonError "Malformed multipart form data" 400, []) ∧
     (handleUpload testEnv randomsZero "https://ex.com" (some "multipart/form-data")
        (Except.error "Unable to parse body as multipart form data")).1.status = 500 ∧
     (handleUpload testEnv randomsZero "https://ex.com" (some "multipart/form-data")
        (Except.error "Unable to parse body as multipart form data")).1.body
       = Body.errorJson (if ("Unable to parse body as multipart form data" : String) = ""
           then "Internal server error" else "Unable to parse body as multipart form data") ∧
     (handleUpload testEnv randomsZero "https://ex.com" (some "multipart/form-data")
        (Except.error "Unable to parse body as multipart form data")).2 = []) :=
  ⟨by decide, by decide,
   parse_failure_behavior testEnv testEnv randZero randomsZero "https://ex.com"
     (some "multipart/form-data") "Unable to parse body as multipart form data"
     (by decide) (by decide)⟩

/-! Claim C9 — the part_000 variant processes only the first files[] entry. -/

/-- C9: in the part_000 variant, at most one provider call and at most one KV
write happen per upload request, a success body always carries exactly one
file record, and any file forwarded to the provider is the first `files[]`
entry of the parsed form. -/
theorem handleUploadP0_single_file (env : Env) (rand : Fin 8 → Fin 62) (origin : String)
    (cth : Option String) (fdE : Except String (List FormEntry)) :
    (handleUploadP0 env rand origin cth fdE).2.countP isTgSend ≤ 1 ∧
    (handleUploadP0 env rand origin cth fdE).2.countP isKvPut ≤ 1 ∧
    (successFilesCount (handleUploadP0 env rand origin cth fdE).1.body = none ∨
      successFilesCount (handleUploadP0 env rand origin cth fdE).1.body = some 1) ∧
    (∀ c f, Effect.tgSend c f ∈ (handleUploadP0 env rand origin cth fdE).2 →
      ∃ fd, fdE = Except.ok fd ∧ formGet fd "files[]" = some (FormValue.file f) ∧
        c = env.chatId) := by
  by_cases hct : strStartsWith (cth.getD "") "multipart/form-data" = true
  · cases fdE with
    | error m =>
        refine ⟨?_, ?_, ?_, ?_⟩ <;>
          simp [handleUploadP0, hct, isTgSend, isKvPut, successFilesCount, jsonError]
    | ok fd =>
        cases hg : formGet fd "files[]" with
        | none =>
            refine ⟨?_, ?_, ?_, ?_⟩ <;>
              simp [handleUploadP0, hct, hg, isTgSend, isKvPut, successFilesCount, jsonError]
        | some v =>
            cases v with
            | str s =>
                refine ⟨?_, ?_, ?_, ?_⟩ <;>
                  simp [handleUploadP0, hct, hg, isTgSend, isKvPut, successFilesCount,
                    jsonError]
            | file f =>
                cases hok : (env.sendDocument f).ok with
                | false =>
                    refine ⟨?_, ?_, ?_, ?_⟩ <;>
                      simp only [handleUploadP0, hct, hg, hok, Bool.not_false,
                        if_true, if_false, Bool.not_true] <;>
                      simp [isTgSend, isKvPut, successFilesCount, jsonError]
                    · exact hg
                | true =>
                    cases hdoc : (env.sendDocument f).document with
                    | none =>
                        refine ⟨?_, ?_, ?_, ?_⟩ <;>
                          simp only [handleUploadP0, hct, hg, hok, hdoc, Bool.not_true,
                            if_true, if_false] <;>
                          simp [isTgSend, isKvPut, successFilesCount, jsonError]
                        · exact hg
                    | some doc =>
                        cases hfid : doc.file_id with
                        | none =>
                            refine ⟨?_, ?_, ?_, ?_⟩ <;>
                              simp only [handleUploadP0, hct, hg, hok, hdoc, hfid,
                                Bool.not_true, if_true, if_false] <;>
                              simp [isTgSend, isKvPut, successFilesCount, jsonError]
                            · exact hg
                        | some fid =>
                            refine ⟨?_, ?_, ?_, ?_⟩ <;>
                              simp only [handleUploadP0, hct, hg, hok, hdoc, hfid,
                                Bool.not_true, if_true, if_false] <;>
                              simp [isTgSend, isKvPut, successFilesCount, jsonError]
                            · exact hg
  · have hct' : strStartsWith (cth.getD "") "multipart/form-data" = false := by
      simpa using hct
    refine ⟨?_, ?_, ?_, ?_⟩ <;>
      simp [handleUploadP0, hct', isTgSend, isKvPut, successFilesCount, jsonError]

/-- C9 witness: a two-entry form still yields at most one call and one write. -/
theorem handleUploadP0_single_file_witness :
    (handleUploadP0 testEnv randZero "https://ex.com" (some "multipart/form-data")
        (Except.ok [⟨"files[]", FormValue.file smallFile⟩,
                    ⟨"files[]", FormValue.file bigFile⟩])).2.countP isTgSend ≤ 1 ∧
    (handleUploadP0 testEnv randZero "https://ex.com" (some "multipart/form-data")
        (Except.ok [⟨"files[]", FormValue.file smallFile⟩,
                    ⟨"files[]", FormValue.file bigFile⟩])).2.countP isKvPut ≤ 1 ∧
    (successFilesCount (handleUploadP0 testEnv randZero "https://ex.com"
        (some "multipart/form-data")
        (Except.ok [⟨"files[]", FormValue.file smallFile⟩,
                    ⟨"files[]", FormValue.file bigFile⟩])).1.body = none ∨
     successFilesCount (handleUploadP0 testEnv randZero "https://ex.com"
        (some "multipart/form-data")
        (Except.ok [⟨"files[]", FormValue.file smallFile⟩,
                    ⟨"files[]", FormValue.file bigFile⟩])).1.body = some 1) ∧
    (∀ c f, Effect.tgSend c f ∈ (handleUploadP0 testEnv randZero "https://ex.com"
        (some "multipart/form-data")
        (Except.ok [⟨"files[]", FormValue.file smallFile⟩,
                    ⟨"files[]", FormValue.file bigFile⟩])).2 →
      ∃ fd, (Except.ok [⟨"files[]", FormValue.file smallFile⟩,
                        ⟨"files[]", FormValue.file bigFile⟩]
               : Except String (List FormEntry)) = Except.ok fd ∧
        formGet fd "files[]" = some (FormValue.file f) ∧ c = testEnv.chatId) :=
  handleUploadP0_single_file testEnv randZero "https://ex.com" (some "multipart/form-data")
    (Except.ok [⟨"files[]", FormValue.file smallFile⟩, ⟨"files[]", FormValue.file bigFile⟩])

/-! Claim C8 — KV write discipline. -/

/-- C8: neither download handler ever writes to the KV store (downloads leave
the mapping state unchanged), and one upload request of the workers.js handler
performs exactly one KV write per successfully stored file — the files within
the size limit for which the provider acknowledged with a `file_id`. -/
theorem kv_write_discipline (env : Env) (kv : String → Option String) (pid : String)
    (randoms : Nat → Fin 8 → Fin 62) (origin : String) (cth : Option String)
    (fd : List FormEntry)
    (hct : strStartsWith (cth.getD "") "multipart/form-data" = true) :
    (handleDownload env kv pid).2.countP isKvPut = 0 ∧
    (handleDownloadP0 env kv pid).2.countP isKvPut = 0 ∧
    (handleUpload env randoms origin cth (Except.ok fd)).2.countP isKvPut
      = (filesOf fd).countP (storedOk env) := by
  refine ⟨?_, ?_, ?_⟩
  · unfold handleDownload
    cases hk : kv pid with
    | none => simp
    | some fid =>
        by_cases he : fid = ""
        · simp [he]
        · cases hok : (env.getFile fid).ok with
          | false => simp [he, hok, isKvPut]
          | true => simp [he, hok, isKvPut]
  · unfold handleDownloadP0
    cases hk : kv pid with
    | none => simp
    | some fid =>
        by_cases he : fid = ""
        · simp [he]
        · cases hok : (env.getFile fid).ok with
          | false => simp [he, hok, isKvPut]
          | true => simp [he, hok, isKvPut]
  · unfold handleUpload
    cases hfe : (filesOf fd).isEmpty with
    | true =>
        have hnil : filesOf fd = [] := List.isEmpty_iff.1 hfe
        simp [hct, hfe, hnil]
    | false =>
        simp only [hct, Bool.not_true, Bool.false_eq_true, if_false, hfe]
        split
        · exact processFiles_kvPut_count env randoms origin 0 (filesOf fd)
        · split
          · exact processFiles_kvPut_count env randoms origin 0 (filesOf fd)
          · exact processFiles_kvPut_count env randoms origin 0 (filesOf fd)

/-- C8 witness: concrete download and single-file upload. -/
theorem kv_write_discipline_witness :
    strStartsWith ((some "multipart/form-data" : Option String).getD "")
        "multipart/form-data" = true ∧
    ((handleDownload testEnv (fun _ => none) "x").2.countP isKvPut = 0 ∧
     (handleDownloadP0 testEnv (fun _ => none) "x").2.countP isKvPut = 0 ∧
     (handleUpload testEnv randomsZero "https://ex.com" (some "multipart/form-data")
        (Except.ok [⟨"files[]", FormValue.file smallFile⟩])).2.countP isKvPut
       = (filesOf [⟨"files[]", FormValue.file smallFile⟩]).countP (storedOk testEnv)) :=
  ⟨by decide,
   kv_write_discipline testEnv (fun _ => none) "x" randomsZero "https://ex.com"
     (some "multipart/form-data") [⟨"files[]", FormValue.file smallFile⟩] (by decide)⟩

/-! Claim C4 — oversized files. -/

/-- C4 counterexample: the part_000 variant has no size check at all.  An
upload of a file one byte over 50 MiB is forwarded to the provider (a `tgSend`
effect occurs), and when the provider rejects it the response is 500, not the
claimed 400-before-any-call. -/
theorem oversize_no_precheck_cex :
    MAX_FILE_SIZE < bigFile.size ∧
    handleUploadP0 testEnvReject randZero "https://ex.com" (some "multipart/form-data")
        (Except.ok [⟨"files[]", FormValue.file bigFile⟩])
      = (jsonError "Upload failed" 500, [Effect.tgSend "chat" bigFile]) ∧
    (handleUploadP0 testEnvReject randZero "https://ex.com" (some "multipart/form-data")
        (Except.ok [⟨"files[]", FormValue.file bigFile⟩])).1.status ≠ 400 := by
  decide

/-- C4 amended: in the workers.js variant an upload batch containing an
oversized file is answered 400, and no provider call or KV write is made for
the oversized file itself — every effect of the request belongs to some file
within the limit (effects for those other files of the same batch do still
happen).  The part_000 variant performs no size check at all and simply
forwards the file. -/
theorem handleUpload_oversize_rejected (env : Env) (randoms : Nat → Fin 8 → Fin 62)
    (origin : String) (cth : Option String) (fd : List FormEntry)
    (hct : strStartsWith (cth.getD "") "multipart/form-data" = true)
    (hov : ∃ f ∈ filesOf fd, MAX_FILE_SIZE < f.size) :
    (handleUpload env randoms origin cth (Except.ok fd)).1.status = 400 ∧
    ∀ e ∈ (handleUpload env randoms origin cth (Except.ok fd)).2,
      ∃ j f, (filesOf fd)[j]? = some f ∧ f.size ≤ MAX_FILE_SIZE ∧
        e ∈ (processFile env (randoms j) origin f).2 := by
  obtain ⟨f0, hf0, hbig⟩ := hov
  have hfe : (filesOf fd).isEmpty = false := by
    cases hfe : (filesOf fd).isEmpty with
    | false => rfl
    | true =>
        rw [List.isEmpty_iff.1 hfe] at hf0
        cases hf0
  have hfind : ((filesOf fd).find? (fun f => decide (MAX_FILE_SIZE < f.size))).isSome :=
    List.find?_isSome.2 ⟨f0, hf0, by simpa using hbig⟩
  obtain ⟨fx, hfx⟩ := Option.isSome_iff_exists.1 hfind
  unfold handleUpload
  simp only [hct, Bool.not_true, Bool.false_eq_true, if_false, hfe, hfx]
  constructor
  · rw [strIncludes_exceeds fx.name]
    rfl
  · intro e he
    obtain ⟨j, f, hj, hmem⟩ :=
      mem_effects_decompose env randoms origin 0 (filesOf fd) e (by simpa using he)
    by_cases hsz : MAX_FILE_SIZE < f.size
    · rw [processFile_oversize env (randoms (0 + j)) origin f hsz] at hmem
      cases hmem
    · exact ⟨j, f, hj, Nat.le_of_not_lt hsz, by simpa using hmem⟩

/-- C4 witness: a batch of one small and one oversized file. -/
theorem handleUpload_oversize_rejected_witness :
    strStartsWith ((some "multipart/form-data" : Option String).getD "")
        "multipart/form-data" = true ∧
    (∃ f ∈ filesOf [⟨"files[]", FormValue.file smallFile⟩,
                    ⟨"files[]", FormValue.file bigFile⟩], MAX_FILE_SIZE < f.size) ∧
    ((handleUpload testEnv randomsZero "https://ex.com" (some "multipart/form-data")
        (Except.ok [⟨"files[]", FormValue.file smallFile⟩,
                    ⟨"files[]", FormValue.file bigFile⟩])).1.status = 400 ∧
     ∀ e ∈ (handleUpload testEnv randomsZero "https://ex.com" (some "multipart/form-data")
        (Except.ok [⟨"files[]", FormValue.file smallFile⟩,
                    ⟨"files[]", FormValue.file bigFile⟩])).2,
       ∃ j f, (filesOf [⟨"files[]", FormValue.file smallFile⟩,
                        ⟨"files[]", FormValue.file bigFile⟩])[j]? = some f ∧
         f.size ≤ MAX_FILE_SIZE ∧
         e ∈ (processFile testEnv (randomsZero j) "https://ex.com" f).2) :=
  ⟨by decide, by decide,
   handleUpload_oversize_rejected testEnv randomsZero "https://ex.com"
     (some "multipart/form-data")
     [⟨"files[]", FormValue.file smallFile⟩, ⟨"files[]", FormValue.file bigFile⟩]
     (by decide) (by decide)⟩

/-- Characterization of the workers.js upload success path: valid content type,
at least one file, none oversized, and all per-file promises fulfilled. -/
theorem handleUpload_eq_success (env : Env) (randoms : Nat → Fin 8 → Fin 62)
    (origin : String) (cth : Option String) (fd : List FormEntry) (recs : List FileRecord)
    (hct : strStartsWith (cth.getD "") "multipart/form-data" = true)
    (hfe : (filesOf fd).isEmpty = false)
    (hfind : (filesOf fd).find? (fun f => decide (MAX_FILE_SIZE < f.size)) = none)
    (hcoll : collectResults
        ((processFiles env randoms origin 0 (filesOf fd)).map (fun x => x.1))
      = Except.ok recs) :
    handleUpload env randoms origin cth (Except.ok fd)
      = (⟨200, Body.successJson recs⟩,
         ((processFiles env randoms origin 0 (filesOf fd)).map (fun x => x.2)).flatten) := by
  unfold handleUpload
  simp only [hct, Bool.not_true, Bool.false_eq_true, if_false, hfe, hfind, hcoll]

/-! Claim C1 — shape of the upload success response. -/

/-- Success-response shape of the workers.js upload handler: whenever it
answers 200, the body is `{success:true, files:[...]}` with exactly one record
per uploaded file, whose `hash` is the 8 random characters (the public
identifier with its extension suffix removed), `name` is the client-supplied
filename, `url` is `{origin}/f/{publicId}` for exactly the `publicId` key
written to the KV store for that file, and `size` is the provider-reported
byte count. -/
theorem handleUpload_success_shape (env : Env) (randoms : Nat → Fin 8 → Fin 62)
    (origin : String) (cth : Option String) (fdE : Except String (List FormEntry))
    (h200 : (handleUpload env randoms origin cth fdE).1.status = 200) :
    ∃ fd recs, fdE = Except.ok fd ∧
      (handleUpload env randoms origin cth fdE).1 = ⟨200, Body.successJson recs⟩ ∧
      recs.length = (filesOf fd).length ∧
      ∀ i f, (filesOf fd)[i]? = some f →
        ∃ doc fid,
          (env.sendDocument f).ok = true ∧
          (env.sendDocument f).document = some doc ∧
          doc.file_id = some fid ∧
          recs[i]? = some
            { hash := String.mk (randomId (randoms i)), name := f.name,
              url := origin ++ "/f/" ++ generatePublicId (randoms i) f.name,
              size := doc.file_size } ∧
          Effect.kvPut (generatePublicId (randoms i) f.name) fid
            ∈ (handleUpload env randoms origin cth fdE).2 ∧
          (generatePublicId (randoms i) f.name).data
            = randomId (randoms i) ++ (extOf f.name).getD [] := by
  by_cases hct : strStartsWith (cth.getD "") "multipart/form-data" = true
  case neg =>
    exfalso
    have hct' : strStartsWith (cth.getD "") "multipart/form-data" = false := by simpa using hct
    unfold handleUpload at h200
    simp only [hct', Bool.not_false, if_true, jsonError] at h200
    omega
  case pos =>
  cases fdE with
  | error m =>
      exfalso
      unfold handleUpload at h200
      simp only [hct, Bool.not_true, Bool.false_eq_true, if_false, jsonError] at h200
      split at h200 <;> omega
  | ok fd =>
  cases hfe : (filesOf fd).isEmpty with
  | true =>
      exfalso
      unfold handleUpload at h200
      simp only [hct, Bool.not_true, Bool.false_eq_true, if_false, hfe, if_true,
        jsonError] at h200
      omega
  | false =>
  cases hfind : (filesOf fd).find? (fun f => decide (MAX_FILE_SIZE < f.size)) with
  | some fx =>
      exfalso
      unfold handleUpload at h200
      simp only [hct, Bool.not_true, Bool.false_eq_true, if_false, hfe, hfind,
        jsonError] at h200
      split at h200 <;> omega
  | none =>
  cases hcoll : collectResults
      ((processFiles env randoms origin 0 (filesOf fd)).map (fun x => x.1)) with
  | error e =>
      exfalso
      unfold handleUpload at h200
      simp only [hct, Bool.not_true, Bool.false_eq_true, if_false, hfe, hfind, hcoll,
        jsonError] at h200
      split at h200 <;> omega
  | ok recs =>
      have Heq := handleUpload_eq_success env randoms origin cth fd recs hct hfe hfind hcoll
      refine ⟨fd, recs, rfl, by rw [Heq], ?_, ?_⟩
      · have hlen := collectResults_ok_length _ _ hcoll
        rw [List.length_map, processFiles_length] at hlen
        exact hlen
      · intro i f hif
        have hi : i < (filesOf fd).length := (List.getElem?_eq_some_iff.1 hif).1
        have hmemf : f ∈ filesOf fd := List.mem_of_getElemEq hif
        have hsize : ¬ MAX_FILE_SIZE < f.size := by
          have := List.find?_eq_none.1 hfind f hmemf
          simpa using this
        have hpr := processFiles_get env randoms origin 0 (filesOf fd) i f hif
        rw [Nat.zero_add] at hpr
        have hlen : recs.length = (filesOf fd).length := by
          have := collectResults_ok_length _ _ hcoll
          rw [List.length_map, processFiles_length] at this
          exact this
        have hri : i < recs.length := by omega
        have hrec : recs[i]? = some recs[i] := List.getElem?_eq_getElem hri
        have hcr := collectResults_ok_get _ _ hcoll i _ hrec
        rw [List.getElem?_map, hpr] at hcr
        simp only [Option.map_some'] at hcr
        have hpf1 : (processFile env (randoms i) origin f).1 = Except.ok recs[i] := by
          injection hcr
        cases hok : (env.sendDocument f).ok with
        | false =>
            exfalso
            simp [processFile, hsize, hok] at hpf1
        | true =>
        cases hdoc : (env.sendDocument f).document with
        | none =>
            exfalso
            simp [processFile, hsize, hok, hdoc] at hpf1
        | some doc =>
        cases hfid : doc.file_id with
        | none =>
            exfalso
            simp [processFile, hsize, hok, hdoc, hfid] at hpf1
        | some fid =>
            have hpf2 : processFile env (randoms i) origin f
                = (Except.ok
                     { hash := String.mk (takeUntilDot
                         (generatePublicId (randoms i) f.name).data),
                       name := f.name,
                       url := origin ++ "/f/" ++ generatePublicId (randoms i) f.name,
                       size := doc.file_size },
                   [Effect.tgSend env.chatId f,
                    Effect.kvPut (generatePublicId (randoms i) f.name) fid]) := by
              unfold processFile
              rw [if_neg hsize]
              simp only [hok, hdoc, hfid, Bool.not_true, Bool.false_eq_true, if_false]
            have hreceq : recs[i] =
                { hash := String.mk (randomId (randoms i)), name := f.name,
                  url := origin ++ "/f/" ++ generatePublicId (randoms i) f.name,
                  size := doc.file_size } := by
              rw [hpf2] at hpf1
              have := hpf1.symm
              injection this with hrec2
              rw [hrec2, takeUntilDot_publicId]
            refine ⟨doc, fid, rfl, rfl, hfid, ?_, ?_, generatePublicId_data _ _⟩
            · rw [hrec, hreceq]
            · rw [Heq]
              show Effect.kvPut (generatePublicId (randoms i) f.name) fid ∈
                ((processFiles env randoms origin 0 (filesOf fd)).map (fun x => x.2)).flatten
              refine List.mem_flatten.2
                ⟨(processFile env (randoms i) origin f).2, ?_, ?_⟩
              · exact List.mem_map_of_mem (fun x => x.2) (List.mem_of_getElemEq hpr)
              · rw [hpf2]
                simp

/-- Characterization of the part_000 upload success path: valid content type,
form parsed, first `files[]` entry is a file, provider acknowledged with a
`file_id`. -/
theorem handleUploadP0_eq_success (env : Env) (rand : Fin 8 → Fin 62) (origin : String)
    (cth : Option String) (fd : List FormEntry) (f : UploadedFile) (doc : TgDoc)
    (fid : String)
    (hct : strStartsWith (cth.getD "") "multipart/form-data" = true)
    (hg : formGet fd "files[]" = some (FormValue.file f))
    (hok : (env.sendDocument f).ok = true)
    (hdoc : (env.sendDocument f).document = some doc)
    (hfid : doc.file_id = some fid) :
    handleUploadP0 env rand origin cth (Except.ok fd)
      = (⟨200, Body.successJson
            [{ hash := String.mk (takeUntilDot (generatePublicId rand f.name).data),
               name := f.name,
               url := origin ++ "/f/" ++ generatePublicId rand f.name,
               size := doc.file_size }]⟩,
         [Effect.tgSend env.chatId f,
          Effect.kvPut (generatePublicId rand f.name) fid]) := by
  unfold handleUploadP0
  simp only [hct, Bool.not_true, Bool.false_eq_true, if_false, hg, hok, hdoc, hfid]

/-- C1: for every successful (HTTP 200) upload, in either variant, the body is
`{success:true, files:[...]}` with one record per uploaded file (exactly one
in the part_000 variant), whose `hash` is the 8 random characters — the public
identifier with its extension suffix removed — `name` is the client-supplied
filename, `url` is `{origin}/f/{publicId}` for exactly the `publicId` key
written to the KV store for that file, and `size` is the provider-reported
byte count. -/
theorem upload_success_shape (env : Env) (randoms : Nat → Fin 8 → Fin 62)
    (rand : Fin 8 → Fin 62) (origin : String) (cth : Option String)
    (fdE : Except String (List FormEntry)) :
    ((handleUpload env randoms origin cth fdE).1.status = 200 →
      ∃ fd recs, fdE = Except.ok fd ∧
        (handleUpload env randoms origin cth fdE).1 = ⟨200, Body.successJson recs⟩ ∧
        recs.length = (filesOf fd).length ∧
        ∀ i f, (filesOf fd)[i]? = some f →
          ∃ doc fid,
            (env.sendDocument f).ok = true ∧
            (env.sendDocument f).document = some doc ∧
            doc.file_id = some fid ∧
            recs[i]? = some
              { hash := String.mk (randomId (randoms i)), name := f.name,
                url := origin ++ "/f/" ++ generatePublicId (randoms i) f.name,
                size := doc.file_size } ∧
            Effect.kvPut (generatePublicId (randoms i) f.name) fid
              ∈ (handleUpload env randoms origin cth fdE).2 ∧
            (generatePublicId (randoms i) f.name).data
              = randomId (randoms i) ++ (extOf f.name).getD []) ∧
    ((handleUploadP0 env rand origin cth fdE).1.status = 200 →
      ∃ fd f doc fid, fdE = Except.ok fd ∧
        formGet fd "files[]" = some (FormValue.file f) ∧
        (env.sendDocument f).ok = true ∧
        (env.sendDocument f).document = some doc ∧
        doc.file_id = some fid ∧
        (handleUploadP0 env rand origin cth fdE).1
          = ⟨200, Body.successJson
              [{ hash := String.mk (randomId rand), name := f.name,
                 url := origin ++ "/f/" ++ generatePublicId rand f.name,
                 size := doc.file_size }]⟩ ∧
        Effect.kvPut (generatePublicId rand f.name) fid
          ∈ (handleUploadP0 env rand origin cth fdE).2 ∧
        (generatePublicId rand f.name).data
          = randomId rand ++ (extOf f.name).getD []) := by
  constructor
  · exact handleUpload_success_shape env randoms origin cth fdE
  · intro h200
    by_cases hct : strStartsWith (cth.getD "") "multipart/form-data" = true
    case neg =>
      exfalso
      have hct' : strStartsWith (cth.getD "") "multipart/form-data" = false := by
        simpa using hct
      unfold handleUploadP0 at h200
      simp only [hct', Bool.not_false, if_true, jsonError] at h200
      omega
    case pos =>
    cases fdE with
    | error m =>
        exfalso
        unfold handleUploadP0 at h200
        simp only [hct, Bool.not_true, Bool.false_eq_true, if_false, jsonError] at h200
        omega
    | ok fd =>
    cases hg : formGet fd "files[]" with
    | none =>
        exfalso
        unfold handleUploadP0 at h200
        simp only [hct, Bool.not_true, Bool.false_eq_true, if_false, hg,
          jsonError] at h200
        omega
    | some v =>
    cases v with
    | str s =>
        exfalso
        unfold handleUploadP0 at h200
        simp only [hct, Bool.not_true, Bool.false_eq_true, if_false, hg,
          jsonError] at h200
        omega
    | file f =>
    cases hok : (env.sendDocument f).ok with
    | false =>
        exfalso
        unfold handleUploadP0 at h200
        simp only [hct, Bool.not_true, Bool.false_eq_true, if_false, hg, hok,
          Bool.not_false, eq_self_iff_true, if_true, jsonError] at h200
        omega
    | true =>
    cases hdoc : (env.sendDocument f).document with
    | none =>
        exfalso
        unfold handleUploadP0 at h200
        simp only [hct, Bool.not_true, Bool.false_eq_true, if_false, hg, hok, hdoc,
          jsonError] at h200
        omega
    | some doc =>
    cases hfid : doc.file_id with
    | none =>
        exfalso
        unfold handleUploadP0 at h200
        simp only [hct, Bool.not_true, Bool.false_eq_true, if_false, hg, hok, hdoc,
          hfid, jsonError] at h200
        omega
    | some fid =>
        have Heq := handleUploadP0_eq_success env rand origin cth fd f doc fid
          hct hg hok hdoc hfid
        refine ⟨fd, f, doc, fid, rfl, hg, hok, hdoc, hfid, ?_, ?_,
          generatePublicId_data _ _⟩
        · rw [Heq, takeUntilDot_publicId]
        · rw [Heq]
          simp

/-- C1 witness: a concrete single-file upload that returns 200 in both
variants. -/
theorem upload_success_shape_witness :
    (handleUpload testEnv randomsZero "https://ex.com" (some "multipart/form-data")
        (Except.ok [⟨"files[]", FormValue.file smallFile⟩])).1.status = 200 ∧
    (handleUploadP0 testEnv randZero "https://ex.com" (some "multipart/form-data")
        (Except.ok [⟨"files[]", FormValue.file smallFile⟩])).1.status = 200 ∧
    (∃ fd recs,
      (Except.ok [⟨"files[]", FormValue.file smallFile⟩]
          : Except String (List FormEntry)) = Except.ok fd ∧
      (handleUpload testEnv randomsZero "https://ex.com" (some "multipart/form-data")
          (Except.ok [⟨"files[]", FormValue.file smallFile⟩])).1
        = ⟨200, Body.successJson recs⟩ ∧
      recs.length = (filesOf fd).length ∧
      ∀ i f, (filesOf fd)[i]? = some f →
        ∃ doc fid,
          (testEnv.sendDocument f).ok = true ∧
          (testEnv.sendDocument f).document = some doc ∧
          doc.file_id = some fid ∧
          recs[i]? = some
            { hash := String.mk (randomId (randomsZero i)), name := f.name,
              url := "https://ex.com" ++ "/f/" ++ generatePublicId (randomsZero i) f.name,
              size := doc.file_size } ∧
          Effect.kvPut (generatePublicId (randomsZero i) f.name) fid
            ∈ (handleUpload testEnv randomsZero "https://ex.com" (some "multipart/form-data")
                (Except.ok [⟨"files[]", FormValue.file smallFile⟩])).2 ∧
          (generatePublicId (randomsZero i) f.name).data
            = randomId (randomsZero i) ++ (extOf f.name).getD []) ∧
    (∃ fd f doc fid,
      (Except.ok [⟨"files[]", FormValue.file smallFile⟩]
          : Except String (List FormEntry)) = Except.ok fd ∧
      formGet fd "files[]" = some (FormValue.file f) ∧
      (testEnv.sendDocument f).ok = true ∧
      (testEnv.sendDocument f).document = some doc ∧
      doc.file_id = some fid ∧
      (handleUploadP0 testEnv randZero "https://ex.com" (some "multipart/form-data")
          (Except.ok [⟨"files[]", FormValue.file smallFile⟩])).1
        = ⟨200, Body.successJson
            [{ hash := String.mk (randomId randZero), name := f.name,
               url := "https://ex.com" ++ "/f/" ++ generatePublicId randZero f.name,
               size := doc.file_size }]⟩ ∧
      Effect.kvPut (generatePublicId randZero f.name) fid
        ∈ (handleUploadP0 testEnv randZero "https://ex.com" (some "multipart/form-data")
            (Except.ok [⟨"files[]", FormValue.file smallFile⟩])).2 ∧
      (generatePublicId randZero f.name).data
        = randomId randZero ++ (extOf f.name).getD []) :=
  ⟨by decide, by decide,
   (upload_success_shape testEnv randomsZero randZero "https://ex.com"
      (some "multipart/form-data")
      (Except.ok [⟨"files[]", FormValue.file smallFile⟩])).1 (by decide),
   (upload_success_shape testEnv randomsZero randZero "https://ex.com"
      (some "multipart/form-data")
      (Except.ok [⟨"files[]", FormValue.file smallFile⟩])).2 (by decide)⟩
